import Mathlib

/-
  Verification development for the JWT authentication server.

  The definitions below are a shallow embedding of the TypeScript sources:
  entities/User.ts, utils/JwtUtil.ts, utils/TokenBlacklist.ts,
  repositories/implementations/MongoUserRepository.ts, the use cases
  (RefreshTokenUseCase, LogoutUseCase, GetUserUseCase, RegisterUseCase),
  AuthMiddleware, AuthController and index.ts.  Time is measured in seconds
  (Unix epoch) as a natural number; JWTs are represented by their claim set,
  which is faithful because HS256 signing is deterministic, so two token
  strings are equal exactly when their claims and signing key agree.
-/

namespace JwtAuth

/-- Roles, from the UserRole enum of entities/User.ts. -/
inductive UserRole where
  | user
  | admin
  | moderator
deriving DecidableEq

/-- IAuthPayload of entities/User.ts: the claim set placed in both token kinds. -/
structure AuthPayload where
  userId : String
  email : String
  role : UserRole
deriving DecidableEq

/-- Which of the two independent secrets signed a token
(JWT_SECRET for access, JWT_REFRESH_SECRET for refresh). -/
inductive TokenKind where
  | access
  | refresh
deriving DecidableEq

/-- A well-formed signed JWT: the payload plus the iat and exp claims that
jwt.sign adds.  Token equality models string equality of the encoded JWT. -/
structure Token where
  kind : TokenKind
  payload : AuthPayload
  iat : Nat
  exp : Nat
deriving DecidableEq

/-- A presented token string: either a well-formed JWT or unparseable garbage
(on which jwt.decode returns null).  The index distinguishes garbage strings. -/
inductive Raw where
  | garbage (n : Nat)
  | signed (t : Token)
deriving DecidableEq

/-- jwt.decode: parse the claims without verifying the signature. -/
def decode : Raw → Option Token
  | .garbage _ => none
  | .signed t => some t

/-- The environment configuration read by JwtUtil (process.env).  The expiry
horizons always receive defaults (7d for access, 30d for refresh) so they are
plain numbers; the two secrets may be absent from the environment. -/
structure Config where
  jwtSecret : Option String
  jwtRefreshSecret : Option String
  jwtExpire : Nat
  jwtRefreshExpire : Nat
deriving DecidableEq

namespace JwtUtil

/-- JwtUtil.generateAccessToken: jwt.sign(payload, JWT_SECRET, expiresIn).
jwt.sign throws when the secret is undefined; the thrown message is the error. -/
def generateAccessToken (cfg : Config) (now : Nat) (p : AuthPayload) :
    Except String Token :=
  match cfg.jwtSecret with
  | none => .error ("secretOrPrivateKey must have a value")
  | some _ => .ok ⟨.access, p, now, now + cfg.jwtExpire⟩

/-- JwtUtil.generateRefreshToken: jwt.sign(payload, JWT_REFRESH_SECRET, expiresIn). -/
def generateRefreshToken (cfg : Config) (now : Nat) (p : AuthPayload) :
    Except String Token :=
  match cfg.jwtRefreshSecret with
  | none => .error ("secretOrPrivateKey must have a value")
  | some _ => .ok ⟨.refresh, p, now, now + cfg.jwtRefreshExpire⟩

/-- JwtUtil.verifyAccessToken: jwt.verify under JWT_SECRET inside try/catch;
any failure (missing secret, malformed token, wrong key, expiry reached)
yields null.  A token is unexpired while now < exp. -/
def verifyAccessToken (cfg : Config) (now : Nat) (t : Raw) : Option AuthPayload :=
  match cfg.jwtSecret with
  | none => none
  | some _ =>
    match decode t with
    | none => none
    | some tok => if tok.kind = .access ∧ now < tok.exp then some tok.payload else none

/-- JwtUtil.verifyRefreshToken: jwt.verify under JWT_REFRESH_SECRET. -/
def verifyRefreshToken (cfg : Config) (now : Nat) (t : Raw) : Option AuthPayload :=
  match cfg.jwtRefreshSecret with
  | none => none
  | some _ =>
    match decode t with
    | none => none
    | some tok => if tok.kind = .refresh ∧ now < tok.exp then some tok.payload else none

end JwtUtil

/-- The Redis connection used by the blacklist: reachable with its key space
(token string mapped to the absolute expiry instant of the entry, since an
entry stored with EX ttl at time now expires at now + ttl), or unreachable,
in which case every command rejects. -/
inductive Redis where
  | up (entries : List (Raw × Nat))
  | down
deriving DecidableEq

namespace TokenBlacklist

/-- TokenBlacklist.add: decode the token; if it has no usable expiry or the
remaining lifetime exp - now is not positive, do nothing; otherwise SET the
key with ttl = exp - now, that is, an entry lasting until the instant exp.
Redis errors are caught and logged, leaving the state unchanged. -/
def add (now : Nat) (t : Raw) (r : Redis) : Redis :=
  match r with
  | .down => .down
  | .up es =>
    match decode t with
    | none => .up es
    | some tok =>
      if tok.exp ≤ now then .up es
      else .up ((t, tok.exp) :: es)

/-- TokenBlacklist.isBlacklisted: GET the key and convert to a boolean.
A Redis error is caught and reported as false (the token is treated as not
revoked).  A stored entry is visible while the current time is before its
expiry instant. -/
def isBlacklisted (now : Nat) (t : Raw) (r : Redis) : Bool :=
  match r with
  | .down => false
  | .up es =>
    match es.find? (fun e => decide (e.1 = t)) with
    | some e => decide (now < e.2)
    | none => false

end TokenBlacklist

/-- A stored user document (IUser / UserModel). -/
structure User where
  id : String
  email : String
  password : String
  name : String
  role : UserRole
  isActive : Bool
  refreshTokens : List Raw
  createdAt : Nat
  updatedAt : Nat
deriving DecidableEq

namespace MongoUserRepository

/-- findById: first document whose _id matches. -/
def findById (db : List User) (uid : String) : Option User :=
  db.find? (fun u => decide (u.id = uid))

/-- findByEmail: first document whose email matches the lowercased query. -/
def findByEmail (db : List User) (email : String) : Option User :=
  db.find? (fun u => decide (u.email = email.toLower))

/-- updateOne with an _id filter: modify the first matching document. -/
def updateFirst : List User → String → (User → User) → List User
  | [], _, _ => []
  | u :: us, uid, f => if u.id = uid then f u :: us else u :: updateFirst us uid f

/-- addRefreshToken: a push of the token onto the array. -/
def addRefreshToken (db : List User) (uid : String) (t : Raw) : List User :=
  updateFirst db uid (fun u => { u with refreshTokens := u.refreshTokens ++ [t] })

/-- removeRefreshToken: a pull, removing every occurrence of the token. -/
def removeRefreshToken (db : List User) (uid : String) (t : Raw) : List User :=
  updateFirst db uid
    (fun u => { u with refreshTokens := u.refreshTokens.filter (fun x => decide (x ≠ t)) })

/-- getRefreshTokens: the refreshTokens array of the user, or empty when the
user is missing. -/
def getRefreshTokens (db : List User) (uid : String) : List Raw :=
  match findById db uid with
  | some u => u.refreshTokens
  | none => []

/-- create: build the document from the input.  The email is lowercased by the
schema, the role field is passed through (the use case supplies it), isActive
is the input unless literally false-omitted, and refreshTokens is not copied
from the input at all: the schema default, the empty array, applies.  Mongo
assigns the fresh _id and the timestamps. -/
def create (db : List User) (newId : String) (now : Nat) (u : User) :
    User × List User :=
  let nu : User :=
    { id := newId
      email := u.email.toLower
      password := u.password
      name := u.name
      role := u.role
      isActive := u.isActive
      refreshTokens := []
      createdAt := now
      updatedAt := now }
  (nu, db ++ [nu])

end MongoUserRepository

/-- The user summary embedded in IAuthResponse. -/
structure UserSummary where
  id : String
  email : String
  name : String
  role : UserRole
deriving DecidableEq

/-- IAuthResponse of entities/User.ts. -/
structure AuthResponse where
  accessToken : Token
  refreshToken : Raw
  user : UserSummary
deriving DecidableEq

namespace RefreshTokenUseCase

/-- RefreshTokenUseCase.execute, the rotation operation, as the sequential
big-step function: blacklist check, signature and expiry verification, user
lookup, membership check of the presented token in the stored array, issuance
of the new pair, then removal of the old token followed by insertion of the
new one.  The result carries the new database state; Redis is not written. -/
def execute (cfg : Config) (now : Nat) (redis : Redis) (db : List User)
    (refreshToken : Raw) : Except String (AuthResponse × List User) :=
  if TokenBlacklist.isBlacklisted now refreshToken redis then
    .error ("Refresh token is revoked")
  else
    match JwtUtil.verifyRefreshToken cfg now refreshToken with
    | none => .error ("Invalid refresh token")
    | some payload =>
      match MongoUserRepository.findById db payload.userId with
      | none => .error ("User not found")
      | some user =>
        if refreshToken ∈ MongoUserRepository.getRefreshTokens db user.id then
          match JwtUtil.generateAccessToken cfg now ⟨user.id, user.email, user.role⟩,
                JwtUtil.generateRefreshToken cfg now ⟨user.id, user.email, user.role⟩ with
          | .ok accessTok, .ok newRefresh =>
            let db1 := MongoUserRepository.removeRefreshToken db user.id refreshToken
            let db2 := MongoUserRepository.addRefreshToken db1 user.id (.signed newRefresh)
            .ok (⟨accessTok, .signed newRefresh,
                  ⟨user.id, user.email, user.name, user.role⟩⟩, db2)
          | .error e, _ => .error e
          | .ok _, .error e => .error e
        else .error ("Refresh token not found or expired")

end RefreshTokenUseCase

/-- Outcome of the authentication middleware: an HTTP rejection with its
status and body message, or the decoded identity attached to the request. -/
inductive AuthOutcome where
  | reject (status : Nat) (message : String)
  | allow (p : AuthPayload)
deriving DecidableEq

namespace AuthMiddleware

/-- AuthMiddleware.authenticate: header present and Bearer-shaped, blacklist
consultation, then verification; each failure is a 401 with its own message. -/
def authenticate (cfg : Config) (now : Nat) (redis : Redis) (header : Option Raw) :
    AuthOutcome :=
  match header with
  | none => .reject 401 ("Missing or invalid authorization header")
  | some token =>
    if TokenBlacklist.isBlacklisted now token redis then
      .reject 401 ("Token has been revoked")
    else
      match JwtUtil.verifyAccessToken cfg now token with
      | none => .reject 401 ("Invalid or expired token")
      | some payload => .allow payload

end AuthMiddleware

namespace LogoutUseCase

/-- LogoutUseCase.execute: remove the refresh token from the persistent store,
then add it to the blacklist for immediate invalidation. -/
def execute (now : Nat) (redis : Redis) (db : List User) (userId : String)
    (refreshToken : Raw) : Redis × List User :=
  let db1 := MongoUserRepository.removeRefreshToken db userId refreshToken
  let redis1 := TokenBlacklist.add now refreshToken redis
  (redis1, db1)

end LogoutUseCase

namespace AuthController

/-- AuthController.refreshToken: the HTTP response as status and body message.
A missing body token is a 400; a use-case failure is reported as a 401 whose
body message is exactly the thrown error message. -/
def refreshToken (cfg : Config) (now : Nat) (redis : Redis) (db : List User)
    (body : Option Raw) : Nat × String :=
  match body with
  | none => (400, "Missing refresh token")
  | some rt =>
    match RefreshTokenUseCase.execute cfg now redis db rt with
    | .ok _ => (200, "Token refreshed successfully")
    | .error msg => (401, msg)

/-- AuthController.logout: when a Bearer access token accompanies the request
it is blacklisted first, then LogoutUseCase runs on the refresh token. -/
def logout (now : Nat) (redis : Redis) (db : List User) (userId : String)
    (refreshToken : Raw) (accessHeader : Option Raw) : Redis × List User :=
  let redis1 :=
    match accessHeader with
    | some a => TokenBlacklist.add now a redis
    | none => redis
  LogoutUseCase.execute now redis1 db userId refreshToken

end AuthController

/-- The shape returned by GetUserUseCase: the user record with the password
and refreshTokens fields destructured away. -/
structure PublicUser where
  id : String
  email : String
  name : String
  role : UserRole
  isActive : Bool
  createdAt : Nat
  updatedAt : Nat
deriving DecidableEq

/-- The projection of a stored user onto the fields GetUserUseCase returns. -/
def publicView (u : User) : PublicUser :=
  ⟨u.id, u.email, u.name, u.role, u.isActive, u.createdAt, u.updatedAt⟩

namespace GetUserUseCase

/-- GetUserUseCase.execute: look the user up and return it without the
password and refreshTokens fields. -/
def execute (db : List User) (uid : String) : Except String PublicUser :=
  match MongoUserRepository.findById db uid with
  | none => .error ("User not found")
  | some u => .ok (publicView u)

end GetUserUseCase

namespace RegisterUseCase

/-- RegisterUseCase.execute: reject when a user with the email exists, hash
the password through the external hasher, and create the document with role
user, isActive true and an empty refreshTokens array.  The use case leaves
_id unset; create assigns the fresh id. -/
def execute (db : List User) (hash : String → String) (newId : String)
    (now : Nat) (email password name : String) : Except String (User × List User) :=
  match MongoUserRepository.findByEmail db email with
  | some _ => .error ("User already exists with this email")
  | none =>
    let newUser : User :=
      { id := ""
        email := email
        password := hash password
        name := name
        role := .user
        isActive := true
        refreshTokens := []
        createdAt := now
        updatedAt := now }
    .ok (MongoUserRepository.create db newId now newUser)

end RegisterUseCase

/-- Availability of the two external connections startServer establishes. -/
structure Env where
  redisAvailable : Bool
  dbAvailable : Bool
deriving DecidableEq

/-- startServer of index.ts: connect to Redis, connect to MongoDB, then
listen.  No part of startup inspects the JWT configuration, so whether the
service begins accepting traffic depends only on the two connections. -/
def startServerAccepts (env : Env) (_cfg : Config) : Bool :=
  env.redisAvailable && env.dbAvailable

/-- The shared mutable state both collaborators expose to concurrent
requests: the Redis connection and the Mongo user collection. -/
structure Shared where
  redis : Redis
  db : List User
deriving DecidableEq

/-- The program counter of one in-flight RefreshTokenUseCase.execute call,
with one constructor per suspension point of the TypeScript code: the five
awaited store operations are isBlacklisted, findById, getRefreshTokens,
removeRefreshToken and addRefreshToken; synchronous work (verification,
membership test, token issuance) is attached to the adjacent await. -/
inductive Thread where
  | start (rt : Raw)
  | verified (rt : Raw) (payload : AuthPayload)
  | haveUser (rt : Raw) (user : User)
  | willRemove (uid : String) (rt : Raw) (resp : AuthResponse)
  | willAdd (uid : String) (resp : AuthResponse)
  | done (result : Except String AuthResponse)

/-- One atomic step of an in-flight rotation against the shared state.
Each step performs exactly one awaited store operation of
RefreshTokenUseCase.execute plus the synchronous code around it. -/
def stepThread (cfg : Config) (now : Nat) (sh : Shared) (t : Thread) :
    Shared × Thread :=
  match t with
  | .start rt =>
    if TokenBlacklist.isBlacklisted now rt sh.redis then
      (sh, .done (.error ("Refresh token is revoked")))
    else
      match JwtUtil.verifyRefreshToken cfg now rt with
      | none => (sh, .done (.error ("Invalid refresh token")))
      | some payload => (sh, .verified rt payload)
  | .verified rt payload =>
    match MongoUserRepository.findById sh.db payload.userId with
    | none => (sh, .done (.error ("User not found")))
    | some user => (sh, .haveUser rt user)
  | .haveUser rt user =>
    if rt ∈ MongoUserRepository.getRefreshTokens sh.db user.id then
      match JwtUtil.generateAccessToken cfg now ⟨user.id, user.email, user.role⟩,
            JwtUtil.generateRefreshToken cfg now ⟨user.id, user.email, user.role⟩ with
      | .ok accessTok, .ok newRefresh =>
        (sh, .willRemove user.id rt
          ⟨accessTok, .signed newRefresh, ⟨user.id, user.email, user.name, user.role⟩⟩)
      | .error e, _ => (sh, .done (.error e))
      | .ok _, .error e => (sh, .done (.error e))
    else (sh, .done (.error ("Refresh token not found or expired")))
  | .willRemove uid rt resp =>
    ({ sh with db := MongoUserRepository.removeRefreshToken sh.db uid rt },
     .willAdd uid resp)
  | .willAdd uid resp =>
    ({ sh with db := MongoUserRepository.addRefreshToken sh.db uid resp.refreshToken },
     .done (.ok resp))
  | .done r => (sh, .done r)

/-- Run a single rotation for a bounded number of steps (a call abandoned
after k of its store operations have completed stops exactly here). -/
def runThread (cfg : Config) (now : Nat) : Nat → Shared × Thread → Shared × Thread
  | 0, st => st
  | k + 1, st => runThread cfg now k (stepThread cfg now st.1 st.2)

/-- Interleave two concurrent rotations: the schedule says which call makes
the next atomic step (true for the first caller, false for the second). -/
def runRace (cfg : Config) (now : Nat) :
    List Bool → Shared → Thread → Thread → Shared × Thread × Thread
  | [], sh, t1, t2 => (sh, t1, t2)
  | b :: rest, sh, t1, t2 =>
    if b then
      let st := stepThread cfg now sh t1
      runRace cfg now rest st.1 st.2 t2
    else
      let st := stepThread cfg now sh t2
      runRace cfg now rest st.1 t1 st.2

/-- A rotation call that has returned its new token pair. -/
def succeeded : Thread → Bool
  | .done (.ok _) => true
  | _ => false

/-- A rotation call that has returned, successfully or not. -/
def finished : Thread → Bool
  | .done _ => true
  | _ => false

/-- Whether a big-step rotation returned a new token pair. -/
def rotOk (r : Except String (AuthResponse × List User)) : Bool :=
  match r with
  | .ok _ => true
  | .error _ => false

/-- The database state left by a big-step rotation (the input state when the
rotation failed). -/
def afterDb (r : Except String (AuthResponse × List User)) (db : List User) :
    List User :=
  match r with
  | .ok st => st.2
  | .error _ => db

/-- A configuration with both secrets present and the default horizons
(7 days of access life, 30 days of refresh life, in seconds). -/
def cfgEx : Config := ⟨some ("s"), some ("r"), 604800, 2592000⟩

/-- A configuration whose environment is missing both signing secrets. -/
def cfgNoSecrets : Config := ⟨none, none, 604800, 2592000⟩

/-- The claim set of the example user. -/
def payloadEx : AuthPayload := ⟨"u", "e", .user⟩

/-- A refresh token issued to the example user at time 50. -/
def rtokEx : Token := ⟨.refresh, payloadEx, 50, 50 + 2592000⟩

/-- The example refresh token as a presented string. -/
def rtEx : Raw := .signed rtokEx

/-- An access token issued to the example user at time 50. -/
def atokEx : Token := ⟨.access, payloadEx, 50, 50 + 604800⟩

/-- The example access token as a presented string. -/
def atEx : Raw := .signed atokEx

/-- The example user, holding one registered refresh token. -/
def userEx : User := ⟨"u", "e", "p", "n", .user, true, [rtEx], 0, 0⟩

/-- A store holding just the example user. -/
def dbEx : List User := [userEx]

/-- A refresh token issued to the example user at time 100. -/
def tok0 : Token := ⟨.refresh, payloadEx, 100, 100 + 2592000⟩

/-- The time-100 refresh token as a presented string. -/
def raw0 : Raw := .signed tok0

/-- A store where the example user holds the time-100 refresh token. -/
def db0 : List User := [⟨"u", "e", "p", "n", .user, true, [raw0], 0, 0⟩]

/-- The refresh token a rotation running at time 100 issues to the example
user: same payload and horizon, issued-at 100. -/
def newRtW : Token := ⟨.refresh, payloadEx, 100, 100 + 2592000⟩

/-- The response of rotating the example token at time 100. -/
def respW : AuthResponse :=
  ⟨⟨.access, payloadEx, 100, 100 + 604800⟩, .signed newRtW, ⟨"u", "e", "n", .user⟩⟩

/-- The store after rotating the example token at time 100. -/
def dbW : List User := [⟨"u", "e", "p", "n", .user, true, [.signed newRtW], 0, 0⟩]

/-- A short-lived refresh token: issued at 0, expiring at 10. -/
def tok6 : Token := ⟨.refresh, payloadEx, 0, 10⟩

/-- The short-lived token as a presented string. -/
def t6 : Raw := .signed tok6

/-- A Redis state in which the example refresh token has been revoked. -/
def redisC4 : Redis := .up [(rtEx, rtokEx.exp)]

/-- A refresh token of a user that does not exist in the store. -/
def tokGhost : Token := ⟨.refresh, ⟨"g", "e2", .user⟩, 50, 50 + 2592000⟩

/-- The ghost-user token as a presented string. -/
def rawGhost : Raw := .signed tokGhost

/-- A record transformation touching only the password and the token list. -/
def fW : User → User := fun u => { u with password := ("q"), refreshTokens := [] }

/-
  Helper lemmas about the Mongo repository operations.
-/

/-- The document found by an id lookup carries that id. -/
theorem findById_id {db : List User} {uid : String} {u : User}
    (h : MongoUserRepository.findById db uid = some u) : u.id = uid := by
  have := List.find?_some h
  simpa using this

/-- An id-filtered updateOne commutes with an id lookup when the update does
not change the id field. -/
theorem findById_updateFirst (db : List User) (uid : String) (f : User → User)
    (hf : ∀ u, (f u).id = u.id) (q : String) :
    MongoUserRepository.findById (MongoUserRepository.updateFirst db uid f) q =
      (MongoUserRepository.findById db q).map
        (fun u => if u.id = uid then f u else u) := by
  induction db with
  | nil => rfl
  | cons u us ih =>
    rw [MongoUserRepository.updateFirst]
    by_cases h1 : u.id = uid
    · rw [if_pos h1]
      by_cases h2 : u.id = q
      · simp only [MongoUserRepository.findById, List.find?_cons, hf u]
        have e2 : (decide (u.id = q)) = true := by simp [h2]
        rw [e2]
        simp [h1]
      · have e1 : (decide ((f u).id = q)) = false := by simp [hf u, h2]
        have e2 : (decide (u.id = q)) = false := by simp [h2]
        simp only [MongoUserRepository.findById, List.find?_cons, e1, e2]
        cases hfind : us.find? (fun v => decide (v.id = q)) with
        | none => rfl
        | some w =>
          have hw : w.id = q := by simpa using List.find?_some hfind
          have hqu : ¬ uid = q := fun h => h2 (h1.trans h)
          have hwuid : ¬ w.id = uid := fun hcon => hqu (hcon.symm.trans hw)
          simp [hwuid]
    · rw [if_neg h1]
      by_cases h2 : u.id = q
      · have e2 : decide (u.id = q) = true := by simp [h2]
        simp only [MongoUserRepository.findById, List.find?_cons, e2]
        simp [h1]
      · have e2 : decide (u.id = q) = false := by simp [h2]
        simp only [MongoUserRepository.findById, List.find?_cons, e2]
        exact ih

/-- updateOne is the identity when the update fixes the document it targets. -/
theorem updateFirst_id (db : List User) (uid : String) (f : User → User)
    (hf : ∀ u, MongoUserRepository.findById db uid = some u → f u = u) :
    MongoUserRepository.updateFirst db uid f = db := by
  induction db with
  | nil => rfl
  | cons u us ih =>
    by_cases h1 : u.id = uid
    · have hfound : MongoUserRepository.findById (u :: us) uid = some u := by
        simp [MongoUserRepository.findById, List.find?_cons, h1]
      rw [MongoUserRepository.updateFirst, if_pos h1, hf u hfound]
    · have hskip : MongoUserRepository.findById (u :: us) uid
           = MongoUserRepository.findById us uid := by
        simp [MongoUserRepository.findById, List.find?_cons, h1]
      rw [MongoUserRepository.updateFirst, if_neg h1]
      exact congrArg (u :: ·) (ih (fun w hw => hf w (hskip.trans hw)))

/-- Effect of addRefreshToken on an id lookup. -/
theorem findById_addRefreshToken (db : List User) (uid : String) (t : Raw) (q : String) :
    MongoUserRepository.findById (MongoUserRepository.addRefreshToken db uid t) q =
      (MongoUserRepository.findById db q).map
        (fun u => if u.id = uid
          then { u with refreshTokens := u.refreshTokens ++ [t] } else u) := by
  rw [MongoUserRepository.addRefreshToken]
  exact findById_updateFirst db uid
    (fun u => { u with refreshTokens := u.refreshTokens ++ [t] }) (fun u => rfl) q

/-- Effect of removeRefreshToken on an id lookup. -/
theorem findById_removeRefreshToken (db : List User) (uid : String) (t : Raw) (q : String) :
    MongoUserRepository.findById (MongoUserRepository.removeRefreshToken db uid t) q =
      (MongoUserRepository.findById db q).map
        (fun u => if u.id = uid
          then { u with refreshTokens := u.refreshTokens.filter (fun x => decide (x ≠ t)) }
          else u) := by
  rw [MongoUserRepository.removeRefreshToken]
  exact findById_updateFirst db uid
    (fun u => { u with refreshTokens := u.refreshTokens.filter (fun x => decide (x ≠ t)) })
    (fun u => rfl) q

/-- Pulling a token removes it: it is absent from the stored array afterwards. -/
theorem not_mem_after_remove (db : List User) (uid : String) (t : Raw) :
    t ∉ MongoUserRepository.getRefreshTokens
      (MongoUserRepository.removeRefreshToken db uid t) uid := by
  rw [MongoUserRepository.getRefreshTokens, findById_removeRefreshToken]
  cases hu : MongoUserRepository.findById db uid with
  | none => simp
  | some w =>
    have hw := findById_id hu
    simp only [Option.map, hw, if_pos rfl]
    intro hmem
    have := (List.mem_filter.mp hmem).2
    simp at this

/-- Pulling an absent token leaves the store unchanged. -/
theorem remove_absent_id (db : List User) (uid : String) (t : Raw)
    (habs : t ∉ MongoUserRepository.getRefreshTokens db uid) :
    MongoUserRepository.removeRefreshToken db uid t = db := by
  rw [MongoUserRepository.removeRefreshToken]
  refine updateFirst_id db uid _ (fun u hu => ?_)
  have htok : t ∉ u.refreshTokens := by
    rw [MongoUserRepository.getRefreshTokens, hu] at habs
    exact habs
  have : u.refreshTokens.filter (fun x => decide (x ≠ t)) = u.refreshTokens :=
    List.filter_eq_self.mpr (fun x hx => decide_eq_true (fun heq => htok (heq ▸ hx)))
  rw [this]

/-- An id lookup ignores a transformation that preserves ids. -/
theorem findById_map (f : User → User) (hid : ∀ u, (f u).id = u.id)
    (db : List User) (uid : String) :
    MongoUserRepository.findById (db.map f) uid =
      (MongoUserRepository.findById db uid).map f := by
  induction db with
  | nil => rfl
  | cons u us ih =>
    rw [List.map_cons, MongoUserRepository.findById, MongoUserRepository.findById,
        List.find?_cons, List.find?_cons]
    by_cases h : u.id = uid
    · have e1 : decide ((f u).id = uid) = true := by simp [hid u, h]
      have e2 : decide (u.id = uid) = true := by simp [h]
      rw [e1, e2]
      rfl
    · have e1 : decide ((f u).id = uid) = false := by simp [hid u, h]
      have e2 : decide (u.id = uid) = false := by simp [h]
      rw [e1, e2]
      exact ih

/-
  The claims.
-/

/-- C1.  The claim requires that two concurrent rotations presenting the same
refresh token never both succeed.  The code violates this: with both callers
interleaved so that each completes its getRefreshTokens read before either
performs its removeRefreshToken write (schedule A A A B B B A A B B over the
five awaited store operations of RefreshTokenUseCase.execute), both callers
pass the membership check and both return a new token pair. -/
theorem claim1_concurrent_rotations_both_succeed :
    succeeded (runRace cfgEx 100 [true, true, true, false, false, false, true, true, false, false]
      ⟨.up [], dbEx⟩ (.start rtEx) (.start rtEx)).2.1 = true ∧
    succeeded (runRace cfgEx 100 [true, true, true, false, false, false, true, true, false, false]
      ⟨.up [], dbEx⟩ (.start rtEx) (.start rtEx)).2.2 = true := by
  exact ⟨by decide, by decide⟩

/-- C2 counterexample.  The claim asserts that after a successful rotate of a
token every further rotate of that token fails.  When the rotation runs in
the same second in which the presented token was issued (iat 100, rotation at
time 100), jwt.sign regenerates the identical token, so the removal followed
by the insertion restores the original state and the same token rotates
successfully again. -/
theorem claim2_counterexample_same_second_rotation :
    rotOk (RefreshTokenUseCase.execute cfgEx 100 (.up []) db0 raw0) = true ∧
    rotOk (RefreshTokenUseCase.execute cfgEx 100 (.up [])
      (afterDb (RefreshTokenUseCase.execute cfgEx 100 (.up []) db0 raw0) db0) raw0)
      = true := by
  exact ⟨by decide, by decide⟩

/-- C2, amended.  After a successful rotate of a token whose issued new
refresh token differs from the presented one (the case in every rotation not
running in the very second of the presented token's issuance), an immediately
subsequent rotate of the same token against the resulting store state fails
with the TokenNotRegistered rejection. -/
theorem claim2_rotate_then_rotate_fails (cfg : Config) (now : Nat) (redis : Redis)
    (db : List User) (rt : Raw) (resp : AuthResponse) (db2 : List User)
    (h : RefreshTokenUseCase.execute cfg now redis db rt = .ok (resp, db2))
    (hne : resp.refreshToken ≠ rt) :
    RefreshTokenUseCase.execute cfg now redis db2 rt
      = .error ("Refresh token not found or expired") := by
  rw [RefreshTokenUseCase.execute] at h
  by_cases hb : TokenBlacklist.isBlacklisted now rt redis
  · rw [if_pos hb] at h; exact Except.noConfusion h
  rw [if_neg hb] at h
  cases hv : JwtUtil.verifyRefreshToken cfg now rt with
  | none => simp only [hv] at h; exact Except.noConfusion h
  | some payload =>
  simp only [hv] at h
  cases hu : MongoUserRepository.findById db payload.userId with
  | none => simp only [hu] at h; exact Except.noConfusion h
  | some user =>
  simp only [hu] at h
  by_cases hm : rt ∈ MongoUserRepository.getRefreshTokens db user.id
  · rw [if_pos hm] at h
    cases hga : JwtUtil.generateAccessToken cfg now ⟨user.id, user.email, user.role⟩ with
    | error e => simp only [hga] at h; exact Except.noConfusion h
    | ok accessTok =>
    cases hgr : JwtUtil.generateRefreshToken cfg now ⟨user.id, user.email, user.role⟩ with
    | error e => simp only [hga, hgr] at h; exact Except.noConfusion h
    | ok newRefresh =>
    simp only [hga, hgr, Except.ok.injEq, Prod.mk.injEq] at h
    obtain ⟨hresp, hdb⟩ := h
    have hid : user.id = payload.userId := findById_id hu
    have hnrt : resp.refreshToken = .signed newRefresh := by rw [← hresp]
    have hdb2 : db2 = MongoUserRepository.addRefreshToken
        (MongoUserRepository.removeRefreshToken db user.id rt) user.id
        (.signed newRefresh) := hdb.symm
    rw [RefreshTokenUseCase.execute, if_neg hb]
    have hfest : MongoUserRepository.findById db2 payload.userId
        = some { user with refreshTokens :=
            (user.refreshTokens.filter (fun x => decide (x ≠ rt)))
              ++ [Raw.signed newRefresh] } := by
      rw [hdb2, findById_addRefreshToken, findById_removeRefreshToken, hu]
      simp [hid]
    have hmem : ¬ (rt ∈ MongoUserRepository.getRefreshTokens db2 user.id) := by
      rw [MongoUserRepository.getRefreshTokens, hid, hfest]
      intro hmem
      rcases List.mem_append.mp hmem with hl | hr
      · have := (List.mem_filter.mp hl).2
        simp at this
      · have : rt = Raw.signed newRefresh := by simpa using hr
        exact hne (hnrt.trans this.symm)
    simp only [hv, hfest]
    simp [hmem]
  · rw [if_neg hm] at h; exact Except.noConfusion h

/-- C2 witness: the example user's token, issued at 50, is rotated at time
100 (so the new token differs), and the immediate re-rotation is rejected
with the replay outcome. -/
theorem claim2_rotate_then_rotate_fails_witness :
    RefreshTokenUseCase.execute cfgEx 100 (.up []) dbW rtEx
      = .error ("Refresh token not found or expired") :=
  claim2_rotate_then_rotate_fails cfgEx 100 (.up []) dbEx rtEx respW dbW
    (by rfl) (by decide)

/-- C3.  The claim requires that a state with the presented token removed but
the new token not yet recorded is never reached.  The code removes first and
inserts afterwards: stopping a rotation after four of its five store
operations (that is, between removeRefreshToken and addRefreshToken) leaves
the user with an empty token array - the old token is gone, the new one is
not recorded - while the rotation has not finished. -/
theorem claim3_remove_precedes_add_mid_state :
    MongoUserRepository.getRefreshTokens
      (runThread cfgEx 100 4 (⟨.up [], dbEx⟩, .start rtEx)).1.db ("u") = [] ∧
    finished (runThread cfgEx 100 4 (⟨.up [], dbEx⟩, .start rtEx)).2 = false := by
  exact ⟨by decide, by decide⟩

/-- C4 counterexample.  Two failing rotation requests with different internal
causes (a revoked token versus a token of a nonexistent user) produce
distinguishable responses: both are 401 but the bodies carry the internal
messages, the second of which even reveals that the user does not exist. -/
theorem claim4_counterexample_distinct_error_bodies :
    AuthController.refreshToken cfgEx 100 redisC4 dbEx (some rtEx)
      = (401, ("Refresh token is revoked")) ∧
    AuthController.refreshToken cfgEx 100 redisC4 dbEx (some rawGhost)
      = (401, ("User not found")) ∧
    AuthController.refreshToken cfgEx 100 redisC4 dbEx (some rtEx)
      ≠ AuthController.refreshToken cfgEx 100 redisC4 dbEx (some rawGhost) := by
  exact ⟨by decide, by decide, by decide⟩

/-- C4, amended.  Every failing rotation with a present token is reported
with the uniform status 401, and every authentication rejection likewise gets
status 401; but the rotation response body is exactly the cause-specific
internal error message, so different failure causes remain distinguishable in
the body. -/
theorem claim4_uniform_status_leaky_body (cfg : Config) (now : Nat) (redis : Redis)
    (db : List User) (rt : Raw) (msg : String)
    (h : RefreshTokenUseCase.execute cfg now redis db rt = .error msg) :
    AuthController.refreshToken cfg now redis db (some rt) = (401, msg) ∧
    (∀ (hdr : Option Raw) (st : Nat) (m : String),
      AuthMiddleware.authenticate cfg now redis hdr = .reject st m → st = 401) := by
  constructor
  · rw [AuthController.refreshToken, h]
  · intro hdr st m ha
    cases hdr with
    | none =>
      simp only [AuthMiddleware.authenticate, AuthOutcome.reject.injEq] at ha
      exact ha.1.symm
    | some token =>
      simp only [AuthMiddleware.authenticate] at ha
      by_cases hb : TokenBlacklist.isBlacklisted now token redis
      · rw [if_pos hb] at ha; simp at ha; exact ha.1.symm
      · rw [if_neg hb] at ha
        cases hv : JwtUtil.verifyAccessToken cfg now token with
        | none => simp only [hv] at ha; simp at ha; exact ha.1.symm
        | some p => simp only [hv] at ha; exact AuthOutcome.noConfusion ha

/-- C4 witness: a revoked-token rotation is answered with 401 and the
internal message in the body. -/
theorem claim4_uniform_status_leaky_body_witness :
    AuthController.refreshToken cfgEx 100 redisC4 dbEx (some rtEx)
      = (401, ("Refresh token is revoked")) :=
  (claim4_uniform_status_leaky_body cfgEx 100 redisC4 dbEx rtEx
    ("Refresh token is revoked") (by rfl)).1

/-- C5.  The claim requires rejecting requests when the Revocation Cache is
unreachable unless a fail-open policy was explicitly configured.  The code
has no such policy anywhere in its configuration and silently fails open:
with Redis unreachable isBlacklisted reports every token as not revoked, a
rotation of a registered token succeeds, and authentication of a token allows
the request. -/
theorem claim5_cache_outage_fails_open :
    (∀ (now : Nat) (t : Raw), TokenBlacklist.isBlacklisted now t Redis.down = false) ∧
    rotOk (RefreshTokenUseCase.execute cfgEx 100 Redis.down dbEx rtEx) = true ∧
    AuthMiddleware.authenticate cfgEx 100 Redis.down (some atEx) = .allow payloadEx := by
  exact ⟨fun _ _ => rfl, by decide, by decide⟩

/-- C6.  Revocation semantics of the blacklist: revoking an unparseable token
is a no-op, revoking a token whose embedded expiry has already passed is a
no-op, and otherwise the token is recorded with a time-to-live equal to its
remaining lifetime, so that at any instant s it reads as revoked exactly
while s precedes the token's original expiry - in particular immediately
after the revocation, and no longer from the expiry on. -/
theorem claim6_revoke_ttl_semantics (es : List (Raw × Nat)) (now : Nat) (t : Raw) :
    (decode t = none → TokenBlacklist.add now t (.up es) = .up es) ∧
    (∀ tok, decode t = some tok → tok.exp ≤ now →
      TokenBlacklist.add now t (.up es) = .up es) ∧
    (∀ tok, decode t = some tok → now < tok.exp →
      ∀ s, TokenBlacklist.isBlacklisted s t (TokenBlacklist.add now t (.up es))
        = decide (s < tok.exp)) := by
  refine ⟨?_, ?_, ?_⟩
  · intro h
    simp only [TokenBlacklist.add, h]
  · intro tok h hle
    simp only [TokenBlacklist.add, h]
    rw [if_pos hle]
  · intro tok h hlt s
    simp only [TokenBlacklist.add, h, if_neg (not_le.mpr hlt)]
    simp [TokenBlacklist.isBlacklisted, List.find?_cons]

/-- C6 witness: a token expiring at 10 is revoked at time 0 and reads as
revoked at time 5. -/
theorem claim6_revoke_ttl_semantics_witness :
    TokenBlacklist.isBlacklisted 5 t6 (TokenBlacklist.add 0 t6 (.up [])) = true :=
  ((claim6_revoke_ttl_semantics [] 0 t6).2.2 tok6 rfl (by decide) 5).trans (by decide)

/-- C7.  Logout with a refresh token and a presented access token: the
refresh token is absent from the user's stored array afterwards, the removal
is idempotent (an absent token leaves the store unchanged), a subsequent
rotate of the refresh token is rejected as revoked, a subsequent
authentication with the access token is rejected as revoked, and yet the
access token still verifies individually (signature domain and expiry). -/
theorem claim7_logout_invalidates_both (cfg : Config) (es : List (Raw × Nat))
    (db : List User) (uid : String) (rtok atok : Token) (now : Nat) (sec : String)
    (hrk : rtok.kind = .refresh) (hak : atok.kind = .access)
    (hrexp : now < rtok.exp) (haexp : now < atok.exp)
    (hsec : cfg.jwtSecret = some sec) :
    Raw.signed rtok ∉ MongoUserRepository.getRefreshTokens
        (AuthController.logout now (.up es) db uid (.signed rtok)
          (some (.signed atok))).2 uid ∧
    (Raw.signed rtok ∉ MongoUserRepository.getRefreshTokens db uid →
      (AuthController.logout now (.up es) db uid (.signed rtok)
        (some (.signed atok))).2 = db) ∧
    RefreshTokenUseCase.execute cfg now
        (AuthController.logout now (.up es) db uid (.signed rtok)
          (some (.signed atok))).1
        (AuthController.logout now (.up es) db uid (.signed rtok)
          (some (.signed atok))).2
        (.signed rtok) = .error ("Refresh token is revoked") ∧
    AuthMiddleware.authenticate cfg now
        (AuthController.logout now (.up es) db uid (.signed rtok)
          (some (.signed atok))).1
        (some (.signed atok)) = .reject 401 ("Token has been revoked") ∧
    JwtUtil.verifyAccessToken cfg now (.signed atok) = some atok.payload := by
  have hres : AuthController.logout now (.up es) db uid (.signed rtok) (some (.signed atok))
      = (.up ((Raw.signed rtok, rtok.exp) :: (Raw.signed atok, atok.exp) :: es),
         MongoUserRepository.removeRefreshToken db uid (.signed rtok)) := by
    rw [AuthController.logout, LogoutUseCase.execute]
    simp [TokenBlacklist.add, decode, not_le.mpr haexp, not_le.mpr hrexp]
  have htne : rtok ≠ atok := by
    intro he
    rw [he, hak] at hrk
    exact TokenKind.noConfusion hrk
  refine ⟨?_, ?_, ?_, ?_, ?_⟩
  · rw [hres]
    exact not_mem_after_remove db uid (.signed rtok)
  · intro habs
    rw [hres]
    exact remove_absent_id db uid _ habs
  · rw [hres, RefreshTokenUseCase.execute]
    have hbl : TokenBlacklist.isBlacklisted now (Raw.signed rtok)
        (.up ((Raw.signed rtok, rtok.exp) :: (Raw.signed atok, atok.exp) :: es))
        = true := by
      simp [TokenBlacklist.isBlacklisted, List.find?_cons, hrexp]
    rw [if_pos hbl]
  · rw [hres, AuthMiddleware.authenticate]
    have hbl : TokenBlacklist.isBlacklisted now (Raw.signed atok)
        (.up ((Raw.signed rtok, rtok.exp) :: (Raw.signed atok, atok.exp) :: es))
        = true := by
      simp [TokenBlacklist.isBlacklisted, List.find?_cons, htne, haexp]
    rw [hbl]
    rfl
  · rw [JwtUtil.verifyAccessToken, hsec]
    simp [decode, hak, haexp]

/-- C7 witness: the example user logs out its refresh token while presenting
its access token; the subsequent rotation attempt is rejected as revoked. -/
theorem claim7_logout_invalidates_both_witness :
    RefreshTokenUseCase.execute cfgEx 100
      (AuthController.logout 100 (.up []) dbEx ("u") rtEx (some atEx)).1
      (AuthController.logout 100 (.up []) dbEx ("u") rtEx (some atEx)).2
      rtEx = .error ("Refresh token is revoked") :=
  (claim7_logout_invalidates_both cfgEx [] dbEx ("u") rtokEx atokEx 100 ("s")
    rfl rfl (by decide) (by decide) rfl).2.2.1

/-- C8 counterexample.  The claim asserts the service does not begin
accepting traffic with a missing signing secret.  Startup only requires the
Redis and MongoDB connections: with both available the service accepts
traffic under a configuration missing both secrets, even though issuing a
token under that configuration throws the configuration error. -/
theorem claim8_counterexample_startup_accepts_without_secrets :
    startServerAccepts ⟨true, true⟩ cfgNoSecrets = true ∧
    JwtUtil.generateAccessToken cfgNoSecrets 0 payloadEx
      = .error ("secretOrPrivateKey must have a value") := by
  exact ⟨by decide, by rfl⟩

/-- C8, amended.  With a missing signing secret, issuance of either token
kind fails fast with the configuration error at the first issuance attempt,
but the condition is not fatal at startup: whether the service accepts
traffic depends only on the Redis and MongoDB connections, never on the
signing configuration. -/
theorem claim8_issuance_fails_fast_startup_unchecked (cfg : Config) (now : Nat)
    (p : AuthPayload) (env : Env)
    (h1 : cfg.jwtSecret = none) (h2 : cfg.jwtRefreshSecret = none) :
    JwtUtil.generateAccessToken cfg now p
      = .error ("secretOrPrivateKey must have a value") ∧
    JwtUtil.generateRefreshToken cfg now p
      = .error ("secretOrPrivateKey must have a value") ∧
    startServerAccepts env cfg = (env.redisAvailable && env.dbAvailable) := by
  refine ⟨?_, ?_, rfl⟩
  · rw [JwtUtil.generateAccessToken, h1]
  · rw [JwtUtil.generateRefreshToken, h2]

/-- C8 witness: the secretless configuration at a concrete time and payload. -/
theorem claim8_issuance_fails_fast_startup_unchecked_witness :
    JwtUtil.generateAccessToken cfgNoSecrets 3 payloadEx
      = .error ("secretOrPrivateKey must have a value") :=
  (claim8_issuance_fails_fast_startup_unchecked cfgNoSecrets 3 payloadEx
    ⟨true, true⟩ rfl rfl).1

/-- C9.  The get-current-user output hides the credentials: any record
transformation that preserves the public projection (id, email, name, role,
isActive, timestamps) - that is, one that may change only the password hash
and the refresh-token list - leaves the output of GetUserUseCase.execute
unchanged on every store and every queried id. -/
theorem claim9_get_user_hides_credentials (db : List User) (uid : String)
    (f : User → User) (hf : ∀ u, publicView (f u) = publicView u) :
    GetUserUseCase.execute (db.map f) uid = GetUserUseCase.execute db uid := by
  have hid : ∀ u, (f u).id = u.id := fun u => congrArg PublicUser.id (hf u)
  rw [GetUserUseCase.execute, GetUserUseCase.execute, findById_map f hid]
  cases hu : MongoUserRepository.findById db uid with
  | none => rfl
  | some u => simp [hf u]

/-- C9 witness: replacing the example user's password and clearing its token
list does not change the get-user output. -/
theorem claim9_get_user_hides_credentials_witness :
    GetUserUseCase.execute ([userEx].map fW) ("u")
      = GetUserUseCase.execute [userEx] ("u") :=
  claim9_get_user_hides_credentials [userEx] ("u") fW (fun _ => rfl)

/-- C10.  Every user created through registration has role user, isActive
true and an empty refresh-token array, for every input email, password and
name; so registration can never create an admin or moderator account. -/
theorem claim10_registration_defaults (db : List User) (hash : String → String)
    (newId : String) (now : Nat) (email password name : String)
    (h : MongoUserRepository.findByEmail db email = none) :
    (RegisterUseCase.execute db hash newId now email password name).map
      (fun r => (r.1.role, r.1.isActive, r.1.refreshTokens))
    = .ok (UserRole.user, true, ([] : List Raw)) := by
  rw [RegisterUseCase.execute]
  simp only [h]
  rfl

/-- C10 witness: registering into an empty store. -/
theorem claim10_registration_defaults_witness :
    (RegisterUseCase.execute [] (fun s => s) ("i") 5 ("E") ("pw") ("nm")).map
      (fun r => (r.1.role, r.1.isActive, r.1.refreshTokens))
    = .ok (UserRole.user, true, ([] : List Raw)) :=
  claim10_registration_defaults [] (fun s => s) ("i") 5 ("E") ("pw") ("nm") (by rfl)

end JwtAuth
